import Mathlib

/-!
Verification of the course-scheduler core: a shallow embedding of the
JavaScript sources (`fileHandler.js`, `scheduler.js`, `grid.js`,
`exporter.js`, `app.js`, `dragDrop.js`, `controls.js`) together with proofs
about the embedded functions.

Modelling conventions:
* A JS `Date` built from `new Date(2020, 0, 1, h, m)` is represented by the
  integer number of minutes since 2020-01-01 00:00; `getHours() * 60 +
  getMinutes()` is then `t % 1440`.
* JS strings are `String` (manipulated through their `List Char` data so
  that every operation reduces inside the kernel), JS arrays are `List`.
* A JS object property that is never assigned (reads as `undefined`) is
  modelled by an `Option` field holding `none`, or `false` for a boolean
  read in a truthiness test.
* Numbers that the code obtains from `parseFloat` are modelled by `ℚ`
  (all inputs exercised here are exact decimal literals).
-/

/-- Minutes-of-day of a modelled `Date` value: the `getHours() * 60 +
getMinutes()` pattern used throughout the source. -/
def minutesOfDay (t : Int) : Int := t % 1440

/-- Numeric value of a decimal digit character. -/
def digitVal (c : Char) : Nat := c.toNat - 48

/-- Value of a string of decimal digits, most significant first. -/
def decimalVal (l : List Char) : Nat := l.foldl (fun a c => 10 * a + digitVal c) 0

/-- List-level infix test (JS `String.prototype.includes`). -/
def isInfixOfL (needle : List Char) : List Char → Bool
  | [] => needle.isEmpty
  | c :: t => needle.isPrefixOf (c :: t) || isInfixOfL needle t

/-- Substring containment, modelling JS `String.prototype.includes`. -/
def containsStr (s sub : String) : Bool := isInfixOfL sub.toList s.toList

/-- JS `String.prototype.trim`: strip whitespace from both ends. -/
def jsTrim (l : List Char) : List Char :=
  ((l.dropWhile Char.isWhitespace).reverse.dropWhile Char.isWhitespace).reverse

/-- JS `String.prototype.toUpperCase` on the character data. -/
def jsToUpper (l : List Char) : List Char := l.map Char.toUpper

/-- JS `String.prototype.toLowerCase` on the character data. -/
def jsToLower (l : List Char) : List Char := l.map Char.toLower

/-- Replace every non-overlapping occurrence of the literal `pat` by `rep`,
scanning left to right: JS `str.replace(/literal/g, rep)`.  The fuel starts
at the list length; since `pat` is never empty in the source each step
consumes at least one character, so the fuel never runs out. -/
def replaceAllAux (pat rep : List Char) : Nat → List Char → List Char
  | _, [] => []
  | 0, l => l
  | fuel + 1, c :: t =>
    if pat.isPrefixOf (c :: t) then rep ++ replaceAllAux pat rep fuel ((c :: t).drop pat.length)
    else c :: replaceAllAux pat rep fuel t

/-- Entry point of the literal global replacement. -/
def replaceAllL (pat rep l : List Char) : List Char := replaceAllAux pat rep l.length l

/-- Collapse every run of whitespace to a single space, modelling the
`str.replace(/\s+/g, ' ')` step of `parseTime` (fileHandler.js line 430).
A leading space in the collapsed tail can only stem from whitespace, so
merging with it reproduces the maximal-run semantics. -/
def collapseWs : List Char → List Char
  | [] => []
  | c :: t =>
    let r := collapseWs t
    if c.isWhitespace then
      match r with
      | ' ' :: _ => r
      | _ => ' ' :: r
    else c :: r

/-- Replace digit-dot-digit by digit-colon-digit, modelling
`str.replace(/(\d)\.(\d)/g, '$1:$2')` (fileHandler.js line 437); after a
match the scan resumes past the consumed digit, as a JS global regex does. -/
def dotToColon : List Char → List Char
  | [] => []
  | [a] => [a]
  | [a, b] => [a, b]
  | a :: b :: c :: t =>
    if a.isDigit && b == '.' && c.isDigit then a :: ':' :: c :: dotToColon t
    else a :: dotToColon (b :: c :: t)

/-- Turn a bare 3- or 4-digit string into `HH:MM`, modelling fileHandler.js
lines 440-443 (`if (/^\d{3,4}$/.test(str)) ...`). -/
def insertColonDigits (l : List Char) : List Char :=
  match l with
  | [a, b, c] => if a.isDigit && b.isDigit && c.isDigit then ['0', a, ':', b, c] else l
  | [a, b, c, d] =>
    if a.isDigit && b.isDigit && c.isDigit && d.isDigit then [a, b, ':', c, d] else l
  | _ => l

/-- Strip a trailing meridiem marker, modelling
`str.replace(/\s*(AM|PM|A|P)\.?\s*$/i, '')` (fileHandler.js line 451) on the
already upper-cased string.  Working from the end: optional whitespace, an
optional dot, then `AM`/`PM`/`A`/`P`, then the whitespace preceding the
group; if the letters are not found the string is unchanged. -/
def stripMeridiem (l : List Char) : List Char :=
  let r := l.reverse
  let r1 := r.dropWhile Char.isWhitespace
  let r2 := match r1 with
    | '.' :: t => t
    | _ => r1
  match r2 with
  | 'M' :: 'A' :: t => (t.dropWhile Char.isWhitespace).reverse
  | 'M' :: 'P' :: t => (t.dropWhile Char.isWhitespace).reverse
  | 'A' :: t => (t.dropWhile Char.isWhitespace).reverse
  | 'P' :: t => (t.dropWhile Char.isWhitespace).reverse
  | _ => l

/-- Match `/^(\d{1,2}):?(\d{2})$/` (fileHandler.js line 453), returning the
hour and minute numbers. -/
def matchTimeDigits (l : List Char) : Option (Nat × Nat) :=
  match l with
  | [a, b, ':', c, d] =>
    if a.isDigit && b.isDigit && c.isDigit && d.isDigit then
      some (decimalVal [a, b], decimalVal [c, d])
    else none
  | [a, ':', c, d] =>
    if a.isDigit && c.isDigit && d.isDigit then some (digitVal a, decimalVal [c, d]) else none
  | [a, b, c, d] =>
    if a.isDigit && b.isDigit && c.isDigit && d.isDigit then
      some (decimalVal [a, b], decimalVal [c, d])
    else none
  | [a, b, c] =>
    if a.isDigit && b.isDigit && c.isDigit then some (digitVal a, decimalVal [b, c]) else none
  | _ => none

/-- Embedding of `parseTime` (fileHandler.js lines 424-470).  Returns the
parsed time as a `Date` (minutes since the 2020-01-01 reference midnight),
or `none` where the source returns `null`. -/
def parseTime (s : String) : Option Int :=
  if s = "" then none
  else
    let s1 := jsToUpper (jsTrim s.toList)
    let s2 := collapseWs s1
    let s3 := replaceAllL "P.M.".toList "PM".toList (replaceAllL "A.M.".toList "AM".toList s2)
    let s4 := replaceAllL "P.M".toList "PM".toList (replaceAllL "A.M".toList "AM".toList s3)
    let s5 := dotToColon s4
    let s6 := insertColonDigits s5
    let isPM := isInfixOfL "PM".toList s6 || isInfixOfL "P".toList s6
    let isAM := isInfixOfL "AM".toList s6 || isInfixOfL "A".toList s6
    let s7 := jsTrim (stripMeridiem s6)
    match matchTimeDigits s7 with
    | none => none
    | some (h0, m) =>
      let h1 := if isPM && h0 != 12 then h0 + 12 else h0
      let h2 := if isAM && h1 == 12 then 0 else h1
      if h2 < 24 && m < 60 then some ((h2 : Int) * 60 + (m : Int)) else none

/-- The alternatives of the day-name regex
`/(monday|mon|tuesday|tues?|wednesday|wed|thursday|thur?s?|th|friday|fri)/gi`
(fileHandler.js line 495), flattened in the order the regex engine tries
them (each alternative's greedy optional-character variants first). -/
def dayAlternatives : List String :=
  ["monday", "mon", "tuesday", "tues", "tue", "wednesday", "wed",
   "thursday", "thurs", "thur", "thus", "thu", "th", "friday", "fri"]

/-- The `dayMap` lookup table of `parseDays` (fileHandler.js lines 485-491).
The variant `thus` is matchable by the regex but absent from the table, so
it maps to `none` exactly as `dayMap['thus']` reads `undefined`. -/
def dayMap : List (String × Char) :=
  [("monday", 'm'), ("mon", 'm'),
   ("tuesday", 't'), ("tue", 't'), ("tues", 't'),
   ("wednesday", 'w'), ("wed", 'w'),
   ("thursday", 'r'), ("thu", 'r'), ("thur", 'r'), ("thurs", 'r'), ("th", 'r'),
   ("friday", 'f'), ("fri", 'f')]

/-- Look a matched word up in `dayMap`. -/
def dayLetterOf (w : String) : Option Char :=
  (dayMap.find? (fun p => p.1 == w)).map (fun p => p.2)

/-- Global scan of `str.match(pattern)`: at each position take the first
regex alternative that matches, consume it, and continue; otherwise advance
one character.  The fuel starts at the list length, which suffices because
every step consumes at least one character. -/
def scanDayMatchesAux : Nat → List Char → List String
  | _, [] => []
  | 0, _ => []
  | fuel + 1, c :: rest =>
    match dayAlternatives.find? (fun a => a.toList.isPrefixOf (c :: rest)) with
    | some a => a :: scanDayMatchesAux fuel (rest.drop (a.length - 1))
    | none => scanDayMatchesAux fuel rest

/-- Entry point of the match scan. -/
def scanDayMatches (l : List Char) : List String := scanDayMatchesAux l.length l

/-- Append a day letter if it is not already present, modelling
`if (letter && !result.includes(letter)) result += letter`. -/
def dedupAppend (acc : List Char) (c : Char) : List Char :=
  if acc.contains c then acc else acc ++ [c]

/-- Position of a day letter in the canonical order string `'mtwrf'`
(fileHandler.js line 524); letters outside the order never reach the sort. -/
def dayIdx (c : Char) : Nat := "mtwrf".toList.indexOf c

/-- Insertion step of the comparator sort
`result.split('').sort((a, b) => order.indexOf(a) - order.indexOf(b))`;
with the pairwise-distinct keys produced by deduplication this computes the
same (unique) sorted order as the JS sort. -/
def insertDay (c : Char) : List Char → List Char
  | [] => [c]
  | d :: t => if dayIdx c ≤ dayIdx d then c :: d :: t else d :: insertDay c t

/-- Sort day letters into the canonical `mtwrf` order. -/
def sortDays (l : List Char) : List Char := l.foldr insertDay []

/-- Embedding of `parseDays` (fileHandler.js lines 476-528). -/
def parseDays (s : String) : String :=
  if s = "" then ""
  else
    let s1 := jsTrim (jsToLower s.toList)
    let s2 : List Char := s1.filter (fun c => !(c == ',' || c.isWhitespace))
    let ms := scanDayMatches s2
    let fromNames : List Char :=
      ms.foldl (fun acc w =>
        match dayLetterOf w with
        | some l => dedupAppend acc l
        | none => acc) []
    if fromNames.isEmpty then
      if s2 = "tr".toList ∨ s2 = "th".toList then "tr"
      else
        let letters := s2.foldl (fun acc c =>
          if ("mtwrf".toList.contains c) && !(acc.contains c) then acc ++ [c] else acc) []
        String.mk (sortDays letters)
    else String.mk (sortDays fromNames)

example : parseTime "8:30 AM" = some 510 := by decide
example : parseTime "12:00 AM" = some 0 := by decide
example : parseTime "12:00 PM" = some 720 := by decide
example : parseTime "2:00 PM" = some 840 := by decide
example : parseTime "0830" = some 510 := by decide
example : parseTime "8.30 AM" = some 510 := by decide
example : parseTime "10:50 A.M." = some 650 := by decide
example : parseTime "6:00 P.M." = some 1080 := by decide
example : parseTime "abc" = none := by decide
example : parseTime "09:00" = some 540 := by decide
example : parseDays "MWF" = "mwf" := by decide
example : parseDays "Wed Mon Fri" = "mwf" := by decide
example : parseDays "TR" = "tr" := by decide
example : parseDays "TH" = "r" := by decide
example : parseDays "Tuesday Thursday" = "tr" := by decide
example : parseDays "M W F" = "mwf" := by decide

/-- Split on a separator character, modelling JS `String.prototype.split`
with a single-character separator. -/
def splitOnCharL (sep : Char) : List Char → List (List Char)
  | [] => [[]]
  | c :: t =>
    let r := splitOnCharL sep t
    if c == sep then [] :: r
    else
      match r with
      | [] => [[c]]
      | h :: t2 => (c :: h) :: t2

/-- Exponent suffix of a JS float literal (`e`/`E`, optional sign, digits);
`0` when absent or dangling, since a dangling exponent marker is not part
of the number `parseFloat` accepts. -/
def parseExpPart (l : List Char) : Int :=
  match l with
  | 'e' :: '-' :: t =>
    if (t.takeWhile Char.isDigit).isEmpty then 0 else -(decimalVal (t.takeWhile Char.isDigit) : Int)
  | 'e' :: '+' :: t =>
    if (t.takeWhile Char.isDigit).isEmpty then 0 else (decimalVal (t.takeWhile Char.isDigit) : Int)
  | 'e' :: t =>
    if (t.takeWhile Char.isDigit).isEmpty then 0 else (decimalVal (t.takeWhile Char.isDigit) : Int)
  | 'E' :: '-' :: t =>
    if (t.takeWhile Char.isDigit).isEmpty then 0 else -(decimalVal (t.takeWhile Char.isDigit) : Int)
  | 'E' :: '+' :: t =>
    if (t.takeWhile Char.isDigit).isEmpty then 0 else (decimalVal (t.takeWhile Char.isDigit) : Int)
  | 'E' :: t =>
    if (t.takeWhile Char.isDigit).isEmpty then 0 else (decimalVal (t.takeWhile Char.isDigit) : Int)
  | _ => 0

/-- Embedding of JS `parseFloat` for the decimal inputs the scheduler
handles: optional leading whitespace, an optional sign, integer digits, an
optional fraction, and an optional exponent; the longest valid numeric
prefix is taken and `none` models `NaN` (no digits at all).  The value is
kept exact in `ℚ`, assembled with `mkRat` from integer arithmetic. -/
def parseFloatQ (s : String) : Option ℚ :=
  let l := s.toList.dropWhile Char.isWhitespace
  let neg : Bool := match l with
    | '-' :: _ => true
    | _ => false
  let l1 := match l with
    | '-' :: t => t
    | '+' :: t => t
    | _ => l
  let intDigits := l1.takeWhile Char.isDigit
  let rest1 := l1.dropWhile Char.isDigit
  let fracDigits := match rest1 with
    | '.' :: t => t.takeWhile Char.isDigit
    | _ => []
  let rest2 := match rest1 with
    | '.' :: t => t.dropWhile Char.isDigit
    | _ => rest1
  if intDigits.isEmpty && fracDigits.isEmpty then none
  else
    let mantNum : Int :=
      ((decimalVal intDigits * 10 ^ fracDigits.length + decimalVal fracDigits : Nat) : Int)
    let signedNum : Int := if neg then -mantNum else mantNum
    let e := parseExpPart rest2
    if 0 ≤ e then some (mkRat (signedNum * 10 ^ e.toNat) (10 ^ fracDigits.length))
    else some (mkRat signedNum (10 ^ fracDigits.length * 10 ^ (-e).toNat))

/-- Embedding of `extractLastName` (scheduler.js lines 50-68). -/
def extractLastName (faculty : String) : String :=
  if faculty = "" then "TBA"
  else
    let f := jsTrim faculty.toList
    if f.contains ',' then String.mk (jsTrim ((splitOnCharL ',' f).headD []))
    else if f.contains ' ' then String.mk (jsTrim ((splitOnCharL ' ' f).getLastD []))
    else String.mk f

/-- The canonical course record, with exactly the fields assigned by the
object literal of `createCourse` (scheduler.js lines 26-40).  The fields
after `overlappingCourses` are never assigned at creation; they model
properties that other modules read (as `undefined`) or assign later
(`room` via `updateCourse`, `_originalRow`/`_originalRowIndex` read by the
exporter, `hasRoomOverlap` read by grid.js and app.js). -/
structure Course where
  id : String
  courseNum : String
  courseName : String
  faculty : String
  facultyFull : String
  days : String
  startTime : Int
  endTime : Int
  length : Int
  fte : ℚ
  visible : Bool
  hasOverlap : Bool
  overlappingCourses : List String
  room : Option String := none
  hasRoomOverlap : Bool := false
  originalRow : Option (List String) := none
  originalRowIndex : Option Nat := none
deriving DecidableEq, Inhabited

/-- A normalized row as produced by `normalizeRows` (fileHandler.js lines
337-356): plain string fields with the defaults applied there, plus the
metadata fields that are only set in single-sheet (`includeTerm`) mode. -/
structure NormalizedRow where
  courseNum : String := ""
  courseName : String := ""
  faculty : String := "TBA"
  days : String := ""
  startTime : String := ""
  endTime : String := ""
  fte : String := "1"
  room : String := ""
  term : Option String := none
  originalRow : Option (List String) := none
  originalRowIndex : Option Nat := none
deriving DecidableEq, Inhabited

/-- Embedding of `createCourse` (scheduler.js lines 13-43).  The module
counter `courseIdCounter` is threaded explicitly: the result pairs the
created course (or `none` where the source returns `null`) with the new
counter value; `++courseIdCounter` only happens on success. -/
def createCourse (counter : Nat) (rowData : NormalizedRow) : Option Course × Nat :=
  match parseTime rowData.startTime, parseTime rowData.endTime, parseDays rowData.days with
  | some st, some et, days =>
    if days = "" then (none, counter)
    else
      let faculty := extractLastName rowData.faculty
      let fte : ℚ := match parseFloatQ rowData.fte with
        | some q => if q = 0 then 1 else q
        | none => 1
      (some
        { id := "course_" ++ Nat.repr (counter + 1)
          courseNum := rowData.courseNum
          courseName := rowData.courseName
          faculty := faculty
          facultyFull := rowData.faculty
          days := days
          startTime := st
          endTime := et
          length := et - st
          fte := fte
          visible := true
          hasOverlap := false
          overlappingCourses := [] }, counter + 1)
  | _, _, _ => (none, counter)

/-- Reset step of `checkAllOverlaps` (scheduler.js lines 75-78). -/
def resetOverlaps (c : Course) : Course :=
  { c with hasOverlap := false, overlappingCourses := [] }

/-- Annotation applied to each member of a conflicting pair (scheduler.js
lines 96-99): set the flag and push the peer id. -/
def markOverlap (c : Course) (peer : String) : Course :=
  { c with hasOverlap := true, overlappingCourses := c.overlappingCourses ++ [peer] }

/-- Embedding of `getCommonDays` (scheduler.js lines 120-128). -/
def getCommonDays (days1 days2 : String) : List Char :=
  days1.toList.filter (fun d => days2.toList.contains d)

/-- Embedding of `timesOverlap` (scheduler.js lines 133-142). -/
def timesOverlap (start1 end1 start2 end2 : Int) : Bool :=
  minutesOfDay start1 < minutesOfDay end2 && minutesOfDay end1 > minutesOfDay start2

/-- Embedding of `coursesOverlap` (scheduler.js lines 108-115). -/
def coursesOverlap (c1 c2 : Course) : Bool :=
  !(getCommonDays c1.days c2.days).isEmpty
    && timesOverlap c1.startTime c1.endTime c2.startTime c2.endTime

/-- Condition under which a pair is annotated by `checkAllOverlaps`
(scheduler.js lines 87-95): same faculty key, not skipped by the TBA rule,
and overlapping; conjunction of the three guards the loop body passes. -/
def pairCond (checkTBA : Bool) (c1 c2 : Course) : Bool :=
  c1.faculty == c2.faculty
    && !(!checkTBA
      && (String.mk (jsToUpper c1.faculty.toList) == "TBA"
        || String.mk (jsToUpper c1.faculty.toList) == "TBD"))
    && coursesOverlap c1 c2

/-- One iteration of the nested pair loop of `checkAllOverlaps` for the
index pair `p` (always `p.1 < p.2 < length` when called): annotate both
members if the pair condition holds. -/
def overlapStep (checkTBA : Bool) (cs : List Course) (p : Nat × Nat) : List Course :=
  let c1 := cs.getD p.1 default
  let c2 := cs.getD p.2 default
  if pairCond checkTBA c1 c2 then
    (cs.set p.1 (markOverlap c1 c2.id)).set p.2 (markOverlap c2 c1.id)
  else cs

/-- The index pairs `(i, j)` with `i < j < n` in the iteration order of the
nested loops of `checkAllOverlaps` (scheduler.js lines 81-82). -/
def pairIndices (n : Nat) : List (Nat × Nat) :=
  (List.range n).flatMap (fun i => ((List.range n).filter (fun j => i < j)).map (fun j => (i, j)))

/-- Embedding of `checkAllOverlaps` (scheduler.js lines 73-103): reset all
annotations, then run the pair loop; the in-place array mutation is
modelled by folding the per-pair update over the list. -/
def checkAllOverlaps (courses : List Course) (checkTBA : Bool) : List Course :=
  (pairIndices courses.length).foldl (overlapStep checkTBA) (courses.map resetOverlaps)

example : parseFloatQ "1" = some 1 := by decide
example : parseFloatQ "0" = some 0 := by decide
example : parseFloatQ "-2" = some (-2) := by decide
example : parseFloatQ "0.5" = some (mkRat 1 2) := by decide
example : parseFloatQ "x" = none := by decide
example : extractLastName "Smith, J." = "Smith" := by decide
example : extractLastName "J. Smith" = "Smith" := by decide
example : extractLastName "" = "TBA" := by decide
example :
    ((createCourse 0
        { courseNum := "CS101", faculty := "Smith, J.", days := "MWF",
          startTime := "8:30 AM", endTime := "9:30 AM" }).1.map Course.faculty)
      = some "Smith" := by
  decide

/-- One display slot of the grid tables (grid.js `TIME_SLOTS`): label and
half-open minute interval; the rendering-only `height` is omitted. -/
structure TimeSlot where
  label : String
  startMinutes : Int
  endMinutes : Int
deriving DecidableEq, Inhabited

/-- The MWF slot table (grid.js lines 25-34). -/
def TIME_SLOTS_mwf : List TimeSlot :=
  [⟨"08:30", 510, 580⟩, ⟨"09:40", 580, 650⟩, ⟨"10:50", 650, 740⟩, ⟨"12:20", 740, 790⟩,
   ⟨"13:10", 790, 860⟩, ⟨"14:20", 860, 930⟩, ⟨"15:30", 930, 1080⟩, ⟨"18:00", 1080, 1320⟩]

/-- The TR slot table (grid.js lines 35-42). -/
def TIME_SLOTS_tr : List TimeSlot :=
  [⟨"08:30", 510, 610⟩, ⟨"10:10", 610, 740⟩, ⟨"12:20", 740, 840⟩, ⟨"14:00", 840, 940⟩,
   ⟨"15:40", 940, 1080⟩, ⟨"18:00", 1080, 1320⟩]

/-- Per-day frame list built by `createTimeFrames` (grid.js lines 68-75):
`m`, `w`, `f` get the MWF table, `t`, `r` the TR table; any other key reads
an absent entry of the `timeFrames` record. -/
def dayConfig (day : Char) : List TimeSlot :=
  if day = 'm' then TIME_SLOTS_mwf
  else if day = 't' then TIME_SLOTS_tr
  else if day = 'w' then TIME_SLOTS_mwf
  else if day = 'r' then TIME_SLOTS_tr
  else if day = 'f' then TIME_SLOTS_mwf
  else []

/-- The closest-frame fold of `findTimeFrame` (grid.js lines 180-190):
track the best frame and distance, updating on a strictly smaller
distance; the `Infinity` start is modelled by `none`. -/
def closestFrame (frames : List TimeSlot) (courseMinutes : Int) : Option (TimeSlot × Int) :=
  frames.foldl (fun acc fr =>
    let d := |courseMinutes - fr.startMinutes|
    match acc with
    | none => some (fr, d)
    | some (_, bd) => if d < bd then some (fr, d) else acc) none

/-- Embedding of `findTimeFrame` (grid.js lines 166-198): first the
containment scan over the day's frames, then the nearest-start fallback
accepted only within 30 minutes. -/
def findTimeFrame (day : Char) (startTime : Int) : Option TimeSlot :=
  let frames := dayConfig day
  if frames.isEmpty then none
  else
    let courseMinutes := minutesOfDay startTime
    match frames.find? (fun fr =>
        decide (fr.startMinutes ≤ courseMinutes) && decide (courseMinutes < fr.endMinutes)) with
    | some fr => some fr
    | none =>
      match closestFrame frames courseMinutes with
      | some (fr, d) => if d ≤ 30 then some fr else none
      | none => none

/-- One block of the scheduler-side tables (scheduler.js `getTimeBlocks`):
start and end `Date`s plus the display label. -/
structure SchedBlock where
  startTime : Int
  endTime : Int
  label : String
deriving DecidableEq, Inhabited

/-- Block construction of `getTimeBlocks` (scheduler.js lines 169-215):
block `i` starts at 7:50 plus `i` ten-minute steps, and a slot of length
`len` covers `len` such steps. -/
def mkSchedBlocks (specs : List (Nat × Nat × String)) : List SchedBlock :=
  specs.map (fun s => ⟨470 + 10 * (s.1 : Int), 470 + 10 * (s.1 : Int) + 10 * (s.2.1 : Int), s.2.2⟩)

/-- The MWF slot specification of `getTimeBlocks` (scheduler.js lines 181-189). -/
def mwfBlocks : List SchedBlock :=
  mkSchedBlocks
    [(4, 7, "08:30"), (11, 8, "09:40"), (18, 7, "10:50"), (32, 7, "12:20"),
     (39, 7, "01:10"), (46, 7, "02:00"), (61, 4, "03:40")]

/-- The TR slot specification of `getTimeBlocks` (scheduler.js lines 192-199). -/
def trBlocks : List SchedBlock :=
  mkSchedBlocks
    [(4, 10, "08:30"), (14, 10, "10:10"), (27, 10, "12:20"), (37, 10, "01:10"),
     (47, 10, "02:00"), (61, 4, "03:40")]

/-- The record returned by `getTimeBlocks` (scheduler.js line 214). -/
structure SchedBlocks where
  mwf : List SchedBlock
  tr : List SchedBlock
deriving DecidableEq

/-- Embedding of `getTimeBlocks` (scheduler.js lines 169-215). -/
def getTimeBlocks : SchedBlocks := ⟨mwfBlocks, trBlocks⟩

/-- Result record of `findCourseTimeFrame` (scheduler.js lines 243-248). -/
structure CourseFrame where
  blockIndex : Nat
  label : String
  isMWF : Bool
  isTR : Bool
deriving DecidableEq

/-- Indexed first-containment search of the block loop (scheduler.js lines
238-250). -/
def findBlockIdx (courseStart : Int) : Nat → List SchedBlock → Option (Nat × SchedBlock)
  | _, [] => none
  | i, b :: rest =>
    if decide (minutesOfDay b.startTime ≤ courseStart)
        && decide (courseStart < minutesOfDay b.endTime) then some (i, b)
    else findBlockIdx courseStart (i + 1) rest

/-- Embedding of `findCourseTimeFrame` (scheduler.js lines 220-254): pick
the block list by day class (MWF only, TR only, or the concatenation for
mixed day sets) and return the first block containing the course start. -/
def findCourseTimeFrame (c : Course) (timeBlocks : SchedBlocks) : Option CourseFrame :=
  let courseStart := minutesOfDay c.startTime
  let isMWF := c.days.toList.contains 'm' || c.days.toList.contains 'w'
    || c.days.toList.contains 'f'
  let isTR := c.days.toList.contains 't' || c.days.toList.contains 'r'
  let blocks :=
    if isMWF && !isTR then timeBlocks.mwf
    else if isTR && !isMWF then timeBlocks.tr
    else timeBlocks.mwf ++ timeBlocks.tr
  match findBlockIdx courseStart 0 blocks with
  | some (i, b) => some ⟨i, b.label, isMWF && !isTR, isTR && !isMWF⟩
  | none => none

/-- Embedding of `canMoveCourse` (scheduler.js lines 277-299).  The
`targetTimeSlot` argument is accepted and ignored exactly as in the
source; `'mwf'.includes(targetDay)` is substring containment. -/
def canMoveCourse (c : Course) (targetTimeSlot : String) (targetDay : String) : Bool :=
  let courseDays := c.days
  if courseDays.length = 1 then true
  else if courseDays = "mwf" then containsStr "mwf" targetDay
  else if courseDays = "tr" then containsStr "tr" targetDay
  else false

/-- JS `Number` on the all-digit strings produced by the drag handler's
zero-padded `HH:MM` labels; other strings produce `NaN`, modelled `none`. -/
def jsNumber (l : List Char) : Option Nat :=
  if !l.isEmpty && l.all Char.isDigit then some (decimalVal l) else none

/-- Embedding of `updateCourseTime` (scheduler.js lines 259-271): parse the
`HH:MM` start label, rebuild the start `Date`, and place the end `Date`
`course.length` minutes later.  The fallback branch models the Invalid
Date a non-numeric label would produce; the drag handler (dragDrop.js
lines 145-151) only ever passes zero-padded numeric labels, and no claim
depends on other inputs. -/
def updateCourseTime (c : Course) (newStartTimeStr : String) : Course :=
  match (splitOnCharL ':' newStartTimeStr.toList).map jsNumber with
  | [some hours, some minutes] =>
    let newStart : Int := (hours : Int) * 60 + (minutes : Int)
    let newEnd : Int := newStart + c.length
    { c with startTime := newStart, endTime := newEnd }
  | _ => { c with startTime := 0, endTime := c.length }

/-- Two-digit zero padding, JS `String(n).padStart(2, '0')`. -/
def pad2 (n : Nat) : String :=
  if n < 10 then "0" ++ Nat.repr n else Nat.repr n

/-- Embedding of `formatTime` (fileHandler.js lines 533-545): 12-hour
display of a `Date`'s time of day. -/
def formatTime (t : Int) : String :=
  let hours := minutesOfDay t / 60
  let minutes := minutesOfDay t % 60
  let ampm := if 12 ≤ hours then "PM" else "AM"
  let h12 := hours % 12
  let h12 := if h12 = 0 then 12 else h12
  Nat.repr h12.toNat ++ ":" ++ pad2 minutes.toNat ++ " " ++ ampm

/-- The field-to-column-index binding produced by `detectColumnMapping`
(fileHandler.js lines 379-401); `none` is an unbound field (`undefined`). -/
structure ColumnMapping where
  courseNum : Option Nat := none
  courseName : Option Nat := none
  faculty : Option Nat := none
  days : Option Nat := none
  startTime : Option Nat := none
  endTime : Option Nat := none
  fte : Option Nat := none
  term : Option Nat := none
  room : Option Nat := none
deriving DecidableEq, Inhabited

/-- Embedding of `getCell` (fileHandler.js lines 406-411): `null` for an
unbound column or a missing cell, otherwise the trimmed cell text. -/
def getCell (row : List String) (index : Option Nat) : Option String :=
  match index with
  | none => none
  | some i =>
    match row.get? i with
    | none => none
    | some v => some (String.mk (jsTrim v.toList))

/-- JS `x || d` on a `getCell` result: the default applies to `null` and to
the empty string, both falsy. -/
def jsOrDefault (x : Option String) (d : String) : String :=
  match x with
  | none => d
  | some s => if s = "" then d else s

/-- Embedding of the per-row body of `normalizeRows` in `includeTerm` mode
(fileHandler.js lines 337-361) for the data row `row` at sheet index `i`:
build the normalized record with the documented defaults, attach the term
cell when the term column is bound, retain the raw row and its index, and
drop the row when course number or days are missing. -/
def normalizeRow (cm : ColumnMapping) (row : List String) (i : Nat) : Option NormalizedRow :=
  let normalized : NormalizedRow :=
    { courseNum := jsOrDefault (getCell row cm.courseNum) ""
      courseName := jsOrDefault (getCell row cm.courseName) ""
      faculty := jsOrDefault (getCell row cm.faculty) "TBA"
      days := jsOrDefault (getCell row cm.days) ""
      startTime := jsOrDefault (getCell row cm.startTime) ""
      endTime := jsOrDefault (getCell row cm.endTime) ""
      fte := jsOrDefault (getCell row cm.fte) "1"
      room := jsOrDefault (getCell row cm.room) ""
      term := if cm.term.isSome then some (jsOrDefault (getCell row cm.term) "") else none
      originalRow := some row
      originalRowIndex := some i }
  if normalized.courseNum ≠ "" ∧ normalized.days ≠ "" then some normalized else none

/-- A spreadsheet cell of an exported row: JS keeps strings and numbers
side by side in the same array. -/
inductive Cell where
  | str (s : String)
  | num (q : ℚ)
deriving DecidableEq

/-- The nine tracked-column overwrites of `createSingleSheetData`
(exporter.js lines 110-135 and, identically, 142-168), applied to a base
row in source order. -/
def applyTrackedColumns (cm : ColumnMapping) (termCode : String) (c : Course) (base : List Cell) :
    List Cell :=
  let setCol (row : List Cell) (idx : Option Nat) (v : Cell) : List Cell :=
    match idx with
    | none => row
    | some i => row.set i v
  let r := setCol base cm.courseNum (Cell.str c.courseNum)
  let r := setCol r cm.courseName (Cell.str c.courseName)
  let r := setCol r cm.faculty (Cell.str (if c.facultyFull = "" then c.faculty else c.facultyFull))
  let r := setCol r cm.days (Cell.str (String.mk (jsToUpper c.days.toList)))
  let r := setCol r cm.startTime (Cell.str (formatTime c.startTime))
  let r := setCol r cm.endTime (Cell.str (formatTime c.endTime))
  let r := setCol r cm.fte (Cell.num c.fte)
  let r := setCol r cm.room (Cell.str ((c.room).getD ""))
  setCol r cm.term (Cell.str termCode)

/-- Per-course row construction of `createSingleSheetData` (exporter.js
lines 102-172): copy the retained original row if the course carries one,
else synthesize an empty row of header width; then overwrite the tracked
columns. -/
def buildExportRow (cm : ColumnMapping) (headers : List String) (termCode : String) (c : Course) :
    List Cell :=
  let base : List Cell :=
    match c.originalRow with
    | some orig => orig.map Cell.str
    | none => List.replicate headers.length (Cell.str "")
  applyTrackedColumns cm termCode c base

example : findTimeFrame 'm' 510 = some ⟨"08:30", 510, 580⟩ := by decide
example : findTimeFrame 'm' 645 = some ⟨"09:40", 580, 650⟩ := by decide
example : findTimeFrame 't' 840 = some ⟨"14:00", 840, 940⟩ := by decide
example : findTimeFrame 'm' 100 = none := by decide
example : formatTime 510 = "8:30 AM" := by decide
example : formatTime 0 = "12:00 AM" := by decide
example : formatTime 720 = "12:00 PM" := by decide
example : (mwfBlocks.getD 2 default).startTime = 650 := by decide
example : (mwfBlocks.getD 1 default).endTime = 660 := by decide

/-! ### Arithmetic facts about decimal representations -/

theorem digitVal_digitChar (d : Nat) (h : d < 10) : digitVal (Nat.digitChar d) = d := by
  interval_cases d <;> decide

theorem isDigit_digitChar (d : Nat) (h : d < 10) : (Nat.digitChar d).isDigit = true := by
  interval_cases d <;> decide

theorem toDigitsCore_foldl (fuel : Nat) :
    ∀ n ds, n < fuel →
      (Nat.toDigitsCore 10 fuel n ds).foldl (fun a c => 10 * a + digitVal c) 0
        = ds.foldl (fun a c => 10 * a + digitVal c) n := by
  induction fuel with
  | zero => intro n ds h; omega
  | succ f ih =>
    intro n ds h
    rw [Nat.toDigitsCore]
    have h10 : n % 10 < 10 := Nat.mod_lt _ (by omega)
    by_cases hz : n / 10 = 0
    · rw [if_pos hz]
      simp only [List.foldl_cons]
      rw [digitVal_digitChar (n % 10) h10]
      have hn : 10 * 0 + n % 10 = n := by omega
      rw [hn]
    · rw [if_neg hz]
      have hlt : n / 10 < f := by
        have h1 : 0 < n := by
          by_contra hc
          exact hz (by omega)
        have := Nat.div_lt_self h1 (by omega : 1 < 10)
        omega
      rw [ih (n / 10) _ hlt]
      simp only [List.foldl_cons]
      rw [digitVal_digitChar (n % 10) h10]
      have hn : 10 * (n / 10) + n % 10 = n := by omega
      rw [hn]

theorem toDigitsCore_digits (fuel : Nat) :
    ∀ n ds, (∀ c ∈ ds, c.isDigit = true) →
      ∀ c ∈ Nat.toDigitsCore 10 fuel n ds, c.isDigit = true := by
  induction fuel with
  | zero => intro n ds hds; exact hds
  | succ f ih =>
    intro n ds hds
    rw [Nat.toDigitsCore]
    have hcons : ∀ c ∈ Nat.digitChar (n % 10) :: ds, c.isDigit = true := by
      intro c hc
      rcases List.mem_cons.mp hc with h | h
      · subst h; exact isDigit_digitChar _ (Nat.mod_lt _ (by omega))
      · exact hds c h
    by_cases hz : n / 10 = 0
    · simpa [hz] using hcons
    · rw [if_neg hz]
      exact ih (n / 10) _ hcons

theorem toDigitsCore_length (fuel : Nat) :
    ∀ n ds, 0 < fuel → ds.length + 1 ≤ (Nat.toDigitsCore 10 fuel n ds).length := by
  induction fuel with
  | zero => intro n ds h; omega
  | succ f ih =>
    intro n ds _
    rw [Nat.toDigitsCore]
    by_cases hz : n / 10 = 0
    · simp [hz]
    · rw [if_neg hz]
      cases f with
      | zero => simp [Nat.toDigitsCore]
      | succ f2 =>
        have := ih (n / 10) (Nat.digitChar (n % 10) :: ds) (by omega)
        simp only [List.length_cons] at this
        omega

theorem natRepr_foldl (n : Nat) :
    (Nat.repr n).toList.foldl (fun a c => 10 * a + digitVal c) 0 = n := by
  show (Nat.toDigits 10 n).asString.toList.foldl _ 0 = n
  have : (Nat.toDigits 10 n).asString.toList = Nat.toDigits 10 n := rfl
  rw [this, Nat.toDigits, toDigitsCore_foldl (n + 1) n [] (by omega)]
  rfl

theorem natRepr_digits (n : Nat) : ∀ c ∈ (Nat.repr n).toList, c.isDigit = true := by
  show ∀ c ∈ (Nat.toDigits 10 n).asString.toList, c.isDigit = true
  have he : (Nat.toDigits 10 n).asString.toList = Nat.toDigits 10 n := rfl
  rw [he, Nat.toDigits]
  exact toDigitsCore_digits (n + 1) n [] (by intro c hc; cases hc)

theorem natRepr_ne_nil (n : Nat) : (Nat.repr n).toList ≠ [] := by
  show (Nat.toDigits 10 n).asString.toList ≠ []
  have he : (Nat.toDigits 10 n).asString.toList = Nat.toDigits 10 n := rfl
  rw [he, Nat.toDigits]
  intro hc
  have := toDigitsCore_length (n + 1) n [] (by omega)
  rw [hc] at this
  simp at this

theorem natRepr_injective {m n : Nat} (h : Nat.repr m = Nat.repr n) : m = n := by
  have h3 := natRepr_foldl m
  have h4 := natRepr_foldl n
  rw [h] at h3
  exact h3.symm.trans h4

theorem decimalVal_natRepr (n : Nat) : decimalVal (Nat.repr n).toList = n := natRepr_foldl n

theorem jsNumber_digits (l : List Char) (hne : l ≠ []) (hd : ∀ c ∈ l, c.isDigit = true) :
    jsNumber l = some (decimalVal l) := by
  have hc : (!l.isEmpty && l.all Char.isDigit) = true := by
    rw [Bool.and_eq_true]
    constructor
    · cases l with
      | nil => exact absurd rfl hne
      | cons a t => simp
    · exact List.all_eq_true.mpr hd
  unfold jsNumber
  rw [if_pos hc]

theorem jsNumber_pad2 (n : Nat) : jsNumber (pad2 n).toList = some n := by
  unfold pad2
  by_cases h : n < 10
  · rw [if_pos h]
    have hdata : ("0" ++ Nat.repr n).toList = '0' :: (Nat.repr n).toList := by
      show ("0" ++ Nat.repr n).data = '0' :: (Nat.repr n).data
      rw [String.data_append]
      rfl
    rw [hdata]
    rw [jsNumber_digits _ (by simp) ?hdig]
    case hdig =>
      intro c hc
      rcases List.mem_cons.mp hc with h2 | h2
      · subst h2; decide
      · exact natRepr_digits n c h2
    have hv : decimalVal ('0' :: (Nat.repr n).toList) = n := by
      unfold decimalVal
      simp only [List.foldl_cons]
      have h0 : 10 * 0 + digitVal '0' = 0 := by decide
      rw [h0]
      exact natRepr_foldl n
    rw [hv]
  · rw [if_neg h]
    rw [jsNumber_digits _ (natRepr_ne_nil n) (natRepr_digits n), decimalVal_natRepr]

/-! ### List helpers for the in-place update model -/

theorem getD_set_self {α : Type} (l : List α) (i : Nat) (a d : α) (h : i < l.length) :
    (l.set i a).getD i d = a := by
  induction l generalizing i with
  | nil => simp at h
  | cons x t ih =>
    cases i with
    | zero => rfl
    | succ k =>
      simp only [List.set_cons_succ, List.getD_cons_succ]
      exact ih k (by simpa using h)

theorem getD_set_other {α : Type} (l : List α) (i j : Nat) (a d : α) (h : i ≠ j) :
    (l.set i a).getD j d = l.getD j d := by
  induction l generalizing i j with
  | nil => simp [List.set]
  | cons x t ih =>
    cases i with
    | zero =>
      cases j with
      | zero => exact absurd rfl h
      | succ k => rfl
    | succ k =>
      cases j with
      | zero => rfl
      | succ k2 =>
        simp only [List.set_cons_succ, List.getD_cons_succ]
        exact ih k k2 (fun hc => h (by rw [hc]))

theorem set_getD_self {α : Type} (l : List α) (i : Nat) (d : α) :
    l.set i (l.getD i d) = l := by
  induction l generalizing i with
  | nil => rfl
  | cons x t ih =>
    cases i with
    | zero => rfl
    | succ k =>
      simp only [List.getD_cons_succ, List.set_cons_succ]
      rw [ih k]

theorem getD_map {α β : Type} (f : α → β) (l : List α) (i : Nat) (d : α) :
    (l.map f).getD i (f d) = f (l.getD i d) := by
  induction l generalizing i with
  | nil => rfl
  | cons x t ih =>
    cases i with
    | zero => rfl
    | succ k =>
      simp only [List.map_cons, List.getD_cons_succ]
      exact ih k

/-! ### Structure of a `checkAllOverlaps` pass -/

theorem mem_pairIndices {n : Nat} {p : Nat × Nat} :
    p ∈ pairIndices n ↔ p.1 < p.2 ∧ p.2 < n := by
  unfold pairIndices
  simp only [List.mem_flatMap, List.mem_map, List.mem_filter, List.mem_range]
  constructor
  · rintro ⟨i, hi, j, ⟨hj, hij⟩, rfl⟩
    exact ⟨by simpa using hij, hj⟩
  · rintro ⟨h1, h2⟩
    exact ⟨p.1, by omega, p.2, ⟨h2, by simpa using h1⟩, rfl⟩

theorem overlapStep_length (b : Bool) (cs : List Course) (p : Nat × Nat) :
    (overlapStep b cs p).length = cs.length := by
  simp only [overlapStep]
  split
  · simp
  · rfl

theorem foldl_overlapStep_length (b : Bool) :
    ∀ (ps : List (Nat × Nat)) (s : List Course), (ps.foldl (overlapStep b) s).length = s.length := by
  intro ps
  induction ps with
  | nil => intro s; rfl
  | cons p t ih =>
    intro s
    rw [List.foldl_cons, ih, overlapStep_length]

theorem resetOverlaps_markOverlap (c : Course) (x : String) :
    resetOverlaps (markOverlap c x) = resetOverlaps c := rfl

theorem resetOverlaps_idem (c : Course) :
    resetOverlaps (resetOverlaps c) = resetOverlaps c := rfl

theorem map_reset_overlapStep (b : Bool) (cs : List Course) (p : Nat × Nat) :
    (overlapStep b cs p).map resetOverlaps = cs.map resetOverlaps := by
  simp only [overlapStep]
  split
  · rw [List.map_set, List.map_set, resetOverlaps_markOverlap, resetOverlaps_markOverlap]
    rw [show resetOverlaps (cs.getD p.1 default)
        = (cs.map resetOverlaps).getD p.1 (resetOverlaps default) from (getD_map _ _ _ _).symm]
    rw [set_getD_self]
    rw [show resetOverlaps (cs.getD p.2 default)
        = (cs.map resetOverlaps).getD p.2 (resetOverlaps default) from (getD_map _ _ _ _).symm]
    rw [set_getD_self]
  · rfl

theorem map_reset_foldl (b : Bool) :
    ∀ (ps : List (Nat × Nat)) (s : List Course),
      (ps.foldl (overlapStep b) s).map resetOverlaps = s.map resetOverlaps := by
  intro ps
  induction ps with
  | nil => intro s; rfl
  | cons p t ih =>
    intro s
    rw [List.foldl_cons, ih, map_reset_overlapStep]

/-- Whether the loop iteration for index pair `p` annotates position `k`
of the working list `s`: the pair condition holds and `k` is one of the two
indices. -/
def pairHits (b : Bool) (s : List Course) (k : Nat) (p : Nat × Nat) : Bool :=
  pairCond b (s.getD p.1 default) (s.getD p.2 default) && (p.1 == k || p.2 == k)

/-- The id pushed onto position `k`'s peer list by the iteration for `p`:
the id of the other member of the pair. -/
def partnerId (s : List Course) (k : Nat) (p : Nat × Nat) : String :=
  if p.1 = k then (s.getD p.2 default).id else (s.getD p.1 default).id

theorem pairCond_of_reset_eq (b : Bool) {c1 c1' c2 c2' : Course}
    (h1 : resetOverlaps c1 = resetOverlaps c1') (h2 : resetOverlaps c2 = resetOverlaps c2') :
    pairCond b c1 c2 = pairCond b c1' c2' := by
  have hf1 : c1.faculty = c1'.faculty := by
    have := congrArg Course.faculty h1; simpa [resetOverlaps] using this
  have hd1 : c1.days = c1'.days := by
    have := congrArg Course.days h1; simpa [resetOverlaps] using this
  have hs1 : c1.startTime = c1'.startTime := by
    have := congrArg Course.startTime h1; simpa [resetOverlaps] using this
  have he1 : c1.endTime = c1'.endTime := by
    have := congrArg Course.endTime h1; simpa [resetOverlaps] using this
  have hf2 : c2.faculty = c2'.faculty := by
    have := congrArg Course.faculty h2; simpa [resetOverlaps] using this
  have hd2 : c2.days = c2'.days := by
    have := congrArg Course.days h2; simpa [resetOverlaps] using this
  have hs2 : c2.startTime = c2'.startTime := by
    have := congrArg Course.startTime h2; simpa [resetOverlaps] using this
  have he2 : c2.endTime = c2'.endTime := by
    have := congrArg Course.endTime h2; simpa [resetOverlaps] using this
  unfold pairCond coursesOverlap getCommonDays timesOverlap
  rw [hf1, hd1, hs1, he1, hf2, hd2, hs2, he2]

theorem id_of_reset_eq {c c' : Course} (h : resetOverlaps c = resetOverlaps c') :
    c.id = c'.id := by
  have := congrArg Course.id h
  simpa [resetOverlaps] using this

theorem reset_getD_eq_of_map_eq {s s' : List Course}
    (h : s.map resetOverlaps = s'.map resetOverlaps) (k : Nat) :
    resetOverlaps (s.getD k default) = resetOverlaps (s'.getD k default) := by
  have h2 := congrArg (fun l => l.getD k (resetOverlaps default)) h
  simpa [getD_map] using h2

theorem pairHits_congr (b : Bool) {s s' : List Course}
    (h : s.map resetOverlaps = s'.map resetOverlaps) (k : Nat) :
    pairHits b s k = pairHits b s' k := by
  funext p
  unfold pairHits
  rw [pairCond_of_reset_eq b (reset_getD_eq_of_map_eq h p.1) (reset_getD_eq_of_map_eq h p.2)]

theorem partnerId_congr {s s' : List Course}
    (h : s.map resetOverlaps = s'.map resetOverlaps) (k : Nat) :
    partnerId s k = partnerId s' k := by
  funext p
  unfold partnerId
  split
  · exact id_of_reset_eq (reset_getD_eq_of_map_eq h p.2)
  · exact id_of_reset_eq (reset_getD_eq_of_map_eq h p.1)

theorem getD_congr_default {α : Type} (l : List α) (k : Nat) (d1 d2 : α) (h : k < l.length) :
    l.getD k d1 = l.getD k d2 := by
  induction l generalizing k with
  | nil => simp at h
  | cons x t ih =>
    cases k with
    | zero => rfl
    | succ k2 =>
      simp only [List.getD_cons_succ]
      exact ih k2 (by simpa using h)

theorem foldl_overl_closed (b : Bool) :
    ∀ (ps : List (Nat × Nat)) (s : List Course) (k : Nat),
      (∀ p ∈ ps, p.1 < p.2 ∧ p.2 < s.length) → k < s.length →
      ((ps.foldl (overlapStep b) s).getD k default).overlappingCourses
        = (s.getD k default).overlappingCourses
          ++ (ps.filter (pairHits b s k)).map (partnerId s k) := by
  intro ps
  induction ps with
  | nil => intro s k _ _; simp
  | cons p t ih =>
    intro s k hval hk
    obtain ⟨hp12, hp2⟩ := hval p (List.mem_cons_self p t)
    have hp1 : p.1 < s.length := lt_trans hp12 hp2
    rw [List.foldl_cons]
    have hlen : (overlapStep b s p).length = s.length := overlapStep_length b s p
    have hmapr : (overlapStep b s p).map resetOverlaps = s.map resetOverlaps :=
      map_reset_overlapStep b s p
    rw [ih (overlapStep b s p) k
      (fun q hq => by rw [hlen]; exact hval q (List.mem_cons_of_mem p hq))
      (by rw [hlen]; exact hk)]
    rw [pairHits_congr b hmapr k, partnerId_congr hmapr k]
    rw [List.filter_cons]
    by_cases hc : pairCond b (s.getD p.1 default) (s.getD p.2 default) = true
    · have hstep : overlapStep b s p
          = (s.set p.1 (markOverlap (s.getD p.1 default) (s.getD p.2 default).id)).set p.2
              (markOverlap (s.getD p.2 default) (s.getD p.1 default).id) := by
        simp only [overlapStep]
        rw [if_pos hc]
      by_cases hk2 : p.2 = k
      · have hne1 : p.1 ≠ k := by omega
        have hgd : ((overlapStep b s p).getD k default)
            = markOverlap (s.getD p.2 default) (s.getD p.1 default).id := by
          rw [hstep, ← hk2]
          exact getD_set_self _ _ _ _ (by rw [List.length_set]; exact hp2)
        have hhits : pairHits b s k p = true := by
          unfold pairHits
          rw [hc]
          simp [hk2]
        have hpart : partnerId s k p = (s.getD p.1 default).id := by
          unfold partnerId
          rw [if_neg hne1]
        rw [hgd, hhits, if_pos rfl, List.map_cons, hpart]
        show ((s.getD p.2 default).overlappingCourses ++ [(s.getD p.1 default).id])
            ++ (t.filter (pairHits b s k)).map (partnerId s k)
          = (s.getD k default).overlappingCourses
            ++ ((s.getD p.1 default).id :: (t.filter (pairHits b s k)).map (partnerId s k))
        rw [hk2, List.append_assoc, List.singleton_append]
      · by_cases hk1 : p.1 = k
        · have hgd : ((overlapStep b s p).getD k default)
              = markOverlap (s.getD p.1 default) (s.getD p.2 default).id := by
            rw [hstep]
            rw [getD_set_other _ _ _ _ _ (fun hx => hk2 hx)]
            rw [← hk1]
            exact getD_set_self _ _ _ _ hp1
          have hhits : pairHits b s k p = true := by
            unfold pairHits
            rw [hc]
            simp [hk1]
          have hpart : partnerId s k p = (s.getD p.2 default).id := by
            unfold partnerId
            rw [if_pos hk1]
          rw [hgd, hhits, if_pos rfl, List.map_cons, hpart]
          show ((s.getD p.1 default).overlappingCourses ++ [(s.getD p.2 default).id])
              ++ (t.filter (pairHits b s k)).map (partnerId s k)
            = (s.getD k default).overlappingCourses
              ++ ((s.getD p.2 default).id :: (t.filter (pairHits b s k)).map (partnerId s k))
          rw [hk1, List.append_assoc, List.singleton_append]
        · have hgd : ((overlapStep b s p).getD k default) = s.getD k default := by
            rw [hstep]
            rw [getD_set_other _ _ _ _ _ (fun hx => hk2 hx)]
            exact getD_set_other _ _ _ _ _ (fun hx => hk1 hx)
          have hhits : pairHits b s k p = false := by
            unfold pairHits
            rw [hc]
            simp [hk1, hk2]
          rw [hgd, hhits]
          simp
    · have hpc : pairCond b (s.getD p.1 default) (s.getD p.2 default) = false := by
        revert hc
        cases pairCond b (s.getD p.1 default) (s.getD p.2 default) <;> simp
      have hstep : overlapStep b s p = s := by
        simp only [overlapStep]
        rw [if_neg hc]
      have hhits : pairHits b s k p = false := by
        unfold pairHits
        rw [hpc]
        rfl
      rw [hstep, hhits]
      simp

theorem checkAllOverlaps_length (cs : List Course) (b : Bool) :
    (checkAllOverlaps cs b).length = cs.length := by
  unfold checkAllOverlaps
  rw [foldl_overlapStep_length]
  simp

theorem checkAllOverlaps_map_reset (cs : List Course) (b : Bool) :
    (checkAllOverlaps cs b).map resetOverlaps = cs.map resetOverlaps := by
  unfold checkAllOverlaps
  rw [map_reset_foldl, List.map_map]
  have h : resetOverlaps ∘ resetOverlaps = resetOverlaps := funext fun c => resetOverlaps_idem c
  rw [h]

theorem checkAllOverlaps_idem (cs : List Course) (b : Bool) :
    checkAllOverlaps (checkAllOverlaps cs b) b = checkAllOverlaps cs b := by
  show (pairIndices (checkAllOverlaps cs b).length).foldl (overlapStep b)
      ((checkAllOverlaps cs b).map resetOverlaps) = checkAllOverlaps cs b
  rw [checkAllOverlaps_length, checkAllOverlaps_map_reset]
  rfl

theorem checkAllOverlaps_id (cs : List Course) (b : Bool) (k : Nat) :
    ((checkAllOverlaps cs b).getD k default).id = (cs.getD k default).id :=
  id_of_reset_eq (reset_getD_eq_of_map_eq (checkAllOverlaps_map_reset cs b) k)

theorem reset_getD_id (cs : List Course) (k : Nat) (hk : k < cs.length) :
    ((cs.map resetOverlaps).getD k default).id = (cs.getD k default).id := by
  rw [getD_congr_default _ _ default (resetOverlaps default) (by simpa using hk), getD_map]
  rfl

theorem checkAllOverlaps_overl (cs : List Course) (b : Bool) (k : Nat) (hk : k < cs.length) :
    ((checkAllOverlaps cs b).getD k default).overlappingCourses
      = ((pairIndices cs.length).filter (pairHits b (cs.map resetOverlaps) k)).map
          (partnerId (cs.map resetOverlaps) k) := by
  unfold checkAllOverlaps
  rw [foldl_overl_closed b _ _ k
    (fun p hp => by
      have := mem_pairIndices.mp hp
      exact ⟨this.1, by simpa using this.2⟩)
    (by simpa using hk)]
  have hbase : (((cs.map resetOverlaps).getD k default)).overlappingCourses = [] := by
    rw [getD_congr_default _ _ default (resetOverlaps default) (by simpa using hk), getD_map]
    rfl
  rw [hbase]
  rfl

theorem mem_overl_iff (cs : List Course) (b : Bool) (k : Nat) (hk : k < cs.length) (x : String) :
    x ∈ ((checkAllOverlaps cs b).getD k default).overlappingCourses
      ↔ ∃ p ∈ pairIndices cs.length, pairHits b (cs.map resetOverlaps) k p = true
          ∧ partnerId (cs.map resetOverlaps) k p = x := by
  rw [checkAllOverlaps_overl cs b k hk]
  simp only [List.mem_map, List.mem_filter]
  constructor
  · rintro ⟨p, ⟨hmem, hhit⟩, hpart⟩
    exact ⟨p, hmem, hhit, hpart⟩
  · rintro ⟨p, hmem, hhit, hpart⟩
    exact ⟨p, ⟨hmem, hhit⟩, hpart⟩

theorem ids_inj (cs : List Course) (hids : (cs.map Course.id).Nodup) (a c : Nat)
    (ha : a < cs.length) (hc : c < cs.length)
    (h : (cs.getD a default).id = (cs.getD c default).id) : a = c := by
  by_contra hne
  have ha2 : a < (cs.map Course.id).length := by simpa using ha
  have hc2 : c < (cs.map Course.id).length := by simpa using hc
  have hab : (cs.map Course.id)[a] = (cs.map Course.id)[c] := by
    rw [List.getElem_map, List.getElem_map,
      ← List.getD_eq_getElem cs default ha, ← List.getD_eq_getElem cs default hc]
    exact h
  have hpw := List.pairwise_iff_getElem.mp hids
  rcases Nat.lt_or_ge a c with hlt | hge
  · exact hpw a c ha2 hc2 hlt hab
  · have hlt2 : c < a := by omega
    exact hpw c a hc2 ha2 hlt2 hab.symm

theorem overl_symm_aux (cs : List Course) (b : Bool) (hids : (cs.map Course.id).Nodup)
    (i j : Nat) (hi : i < cs.length) (hj : j < cs.length)
    (hmem : ((checkAllOverlaps cs b).getD j default).id
      ∈ ((checkAllOverlaps cs b).getD i default).overlappingCourses) :
    ((checkAllOverlaps cs b).getD i default).id
      ∈ ((checkAllOverlaps cs b).getD j default).overlappingCourses := by
  by_cases hij : i = j
  · subst hij; exact hmem
  rw [checkAllOverlaps_id cs b j] at hmem
  rw [checkAllOverlaps_id cs b i]
  obtain ⟨p, hpmem, hhit, hpart⟩ := (mem_overl_iff cs b i hi _).mp hmem
  obtain ⟨hp12, hp2n⟩ := mem_pairIndices.mp hpmem
  have hp1n : p.1 < cs.length := lt_trans hp12 hp2n
  have hcond : pairCond b ((cs.map resetOverlaps).getD p.1 default)
      ((cs.map resetOverlaps).getD p.2 default) = true := by
    have h1 := hhit
    unfold pairHits at h1
    rw [Bool.and_eq_true] at h1
    exact h1.1
  have hki : p.1 = i ∨ p.2 = i := by
    have h1 := hhit
    unfold pairHits at h1
    rw [Bool.and_eq_true] at h1
    have h2 := h1.2
    rw [Bool.or_eq_true] at h2
    rcases h2 with h3 | h3
    · exact Or.inl (by simpa using h3)
    · exact Or.inr (by simpa using h3)
  apply (mem_overl_iff cs b j hj _).mpr
  rcases hki with hcase | hcase
  · -- p = (i, p.2) and the partner written at i is the course at p.2
    have hpartner : partnerId (cs.map resetOverlaps) i p = (cs.getD p.2 default).id := by
      unfold partnerId
      rw [if_pos hcase, reset_getD_id cs p.2 hp2n]
    have hp2j : p.2 = j := by
      apply ids_inj cs hids p.2 j hp2n hj
      rw [← hpartner, hpart]
    refine ⟨p, hpmem, ?_, ?_⟩
    · unfold pairHits
      rw [hcond]
      simp [hp2j]
    · unfold partnerId
      rw [if_neg (by omega), reset_getD_id cs p.1 hp1n, hcase]
  · -- p = (p.1, i) and the partner written at i is the course at p.1
    have hne : p.1 ≠ i := by omega
    have hpartner : partnerId (cs.map resetOverlaps) i p = (cs.getD p.1 default).id := by
      unfold partnerId
      rw [if_neg hne, reset_getD_id cs p.1 hp1n]
    have hp1j : p.1 = j := by
      apply ids_inj cs hids p.1 j hp1n hj
      rw [← hpartner, hpart]
    refine ⟨p, hpmem, ?_, ?_⟩
    · unfold pairHits
      rw [hcond]
      simp [hp1j]
    · unfold partnerId
      rw [if_pos hp1j, reset_getD_id cs p.2 hp2n, hcase]

/-! ### Helpers for the move validator and the drag label parser -/

theorem isInfixOfL_singleton (t : Char) (l : List Char) :
    isInfixOfL [t] l = l.contains t := by
  induction l with
  | nil => rfl
  | cons a r ih =>
    unfold isInfixOfL
    rw [ih]
    cases hbeq : t == a
    · have hne : ¬ t = a := by simpa using hbeq
      simp [List.isPrefixOf, hbeq, hne]
    · have heq : t = a := by simpa using hbeq
      simp [List.isPrefixOf, hbeq, heq]

theorem pad2_digits (n : Nat) : ∀ c ∈ (pad2 n).toList, c.isDigit = true := by
  unfold pad2
  by_cases h : n < 10
  · rw [if_pos h]
    have hdata : ("0" ++ Nat.repr n).toList = '0' :: (Nat.repr n).toList := by
      show ("0" ++ Nat.repr n).data = '0' :: (Nat.repr n).data
      rw [String.data_append]
      rfl
    rw [hdata]
    intro c hc
    rcases List.mem_cons.mp hc with h2 | h2
    · subst h2; decide
    · exact natRepr_digits n c h2
  · rw [if_neg h]
    exact natRepr_digits n

theorem pad2_no_colon (n : Nat) : ∀ c ∈ (pad2 n).toList, (c == ':') = false := by
  intro c hc
  have hd : c.isDigit = true := pad2_digits n c hc
  cases hbeq : c == ':' with
  | false => rfl
  | true =>
    have hce : c = ':' := by simpa using hbeq
    rw [hce] at hd
    simp at hd

theorem splitOnCharL_no_sep (sep : Char) (l : List Char)
    (h : ∀ c ∈ l, (c == sep) = false) : splitOnCharL sep l = [l] := by
  induction l with
  | nil => rfl
  | cons c t ih =>
    unfold splitOnCharL
    rw [h c (List.mem_cons_self c t)]
    rw [ih (fun x hx => h x (List.mem_cons_of_mem c hx))]
    simp

theorem splitOnCharL_append (sep : Char) (a b : List Char)
    (ha : ∀ c ∈ a, (c == sep) = false) (hb : ∀ c ∈ b, (c == sep) = false) :
    splitOnCharL sep (a ++ sep :: b) = [a, b] := by
  induction a with
  | nil =>
    show splitOnCharL sep (sep :: b) = [[], b]
    unfold splitOnCharL
    rw [show (sep == sep) = true by simp]
    rw [splitOnCharL_no_sep sep b hb]
    simp
  | cons x t ih =>
    show splitOnCharL sep (x :: (t ++ sep :: b)) = [x :: t, b]
    unfold splitOnCharL
    rw [ha x (List.mem_cons_self x t)]
    rw [ih (fun c hc => ha c (List.mem_cons_of_mem x hc))]
    simp

/-! ### Claims -/

/-- C4: evaluation of `parseDays` at the spec's examples.  The order- and
case-insensitive, deduplicating behaviour holds on the `"Wed Mon Fri"` and
`"mwf"` examples, but `parseDays "TH"` returns `"r"` (Thursday alone), not
the `"tr"` the claim states: the day-name regex maps the whole word `th`
to Thursday before the special case `if (str === 'tr' || str === 'th')
return 'tr'` (fileHandler.js line 511) can run, leaving that branch dead
for `"th"` although its own comment says `TR/TH = Tuesday/Thursday`. -/
theorem c4_parseDays_th_is_thursday :
    parseDays "TH" = "r" ∧ parseDays "TH" ≠ "tr"
      ∧ parseDays "Wed Mon Fri" = "mwf" ∧ parseDays "mwf" = "mwf"
      ∧ parseDays "TR" = "tr" := by
  decide

/-- Concrete course used to exhibit the C5 counterexample: a MWF course
whose start `Date` is 10:50 (minute 650), exactly the start minute of the
third MWF block of `getTimeBlocks`. -/
def c5course : Course :=
  { id := "course_c5", courseNum := "CS105", courseName := "", faculty := "X",
    facultyFull := "X", days := "mwf", startTime := 650, endTime := 710, length := 60,
    fte := 1, visible := true, hasOverlap := false, overlappingCourses := [] }

/-- C5 counterexample: in the scheduler-side slot table (`getTimeBlocks`,
cited by the claim), the block labelled `"09:40"` runs to minute 660 and
overlaps the block labelled `"10:50"` starting at 650, so a course whose
start minute is exactly 650 — the start minute of the `"10:50"` slot — is
mapped by `findCourseTimeFrame` to block index 1 (`"09:40"`), not to the
slot whose start it equals.  This refutes the claim as stated. -/
theorem c5_sched_table_overlapping_slots :
    (mwfBlocks.getD 2 default).label = "10:50"
      ∧ (mwfBlocks.getD 2 default).startTime = 650
      ∧ (mwfBlocks.getD 1 default).endTime = 660
      ∧ minutesOfDay c5course.startTime = 650
      ∧ findCourseTimeFrame c5course getTimeBlocks
          = some { blockIndex := 1, label := "09:40", isMWF := true, isTR := false } := by
  decide

/-- C5 amended: in the grid-side tables that `findTimeFrame` actually
searches (grid.js `TIME_SLOTS`, whose slots are pairwise disjoint within
each day class), a course whose start minute equals a slot's start minute
is always mapped to exactly that slot by the containment scan, never to a
nearest-match fallback neighbour. -/
theorem c5_grid_slot_start_maps_to_slot :
    ∀ (d : Char) (s : TimeSlot) (t : Int),
      s ∈ dayConfig d → minutesOfDay t = s.startMinutes → findTimeFrame d t = some s := by
  intro d s t hs ht
  unfold dayConfig at hs
  split_ifs at hs with h1 h2 h3 h4 h5
  · subst h1
    unfold TIME_SLOTS_mwf at hs
    fin_cases hs <;> (unfold findTimeFrame; rw [ht]; decide)
  · subst h2
    unfold TIME_SLOTS_tr at hs
    fin_cases hs <;> (unfold findTimeFrame; rw [ht]; decide)
  · subst h3
    unfold TIME_SLOTS_mwf at hs
    fin_cases hs <;> (unfold findTimeFrame; rw [ht]; decide)
  · subst h4
    unfold TIME_SLOTS_tr at hs
    fin_cases hs <;> (unfold findTimeFrame; rw [ht]; decide)
  · subst h5
    unfold TIME_SLOTS_mwf at hs
    fin_cases hs <;> (unfold findTimeFrame; rw [ht]; decide)
  · exact absurd hs (by simp)

/-- Witness for the amended C5 theorem at day `m`, the `"09:40"` slot, and
a start `Date` of minute 580. -/
theorem c5_grid_slot_start_maps_to_slot_witness :
    findTimeFrame 'm' 580 = some ⟨"09:40", 580, 650⟩ :=
  c5_grid_slot_start_maps_to_slot 'm' ⟨"09:40", 580, 650⟩ 580 (by decide) (by decide)

/-- An MWF-locked course for the C6 witness. -/
def c6mwfCourse : Course :=
  { id := "course_c6a", courseNum := "", courseName := "", faculty := "X", facultyFull := "X",
    days := "mwf", startTime := 510, endTime := 570, length := 60, fte := 1, visible := true,
    hasOverlap := false, overlappingCourses := [] }

/-- A single-day (Tuesday) course for the C6 witness. -/
def c6tCourse : Course :=
  { id := "course_c6b", courseNum := "", courseName := "", faculty := "X", facultyFull := "X",
    days := "t", startTime := 510, endTime := 570, length := 60, fte := 1, visible := true,
    hasOverlap := false, overlappingCourses := [] }

/-- C6: `canMoveCourse` is embedded as a pure function and classifies
relocation exactly as claimed: a single-day course may move to any target
day; a course with day set exactly `"mwf"` may move to a day iff it is one
of `m`, `w`, `f`; a course with day set exactly `"tr"` may move iff the
target is `t` or `r`; every other multi-day combination is rejected. -/
theorem c6_canMoveCourse_classes :
    (∀ (c : Course) (slot : String) (t : Char), c.days.length = 1 →
        canMoveCourse c slot (String.singleton t) = true)
      ∧ (∀ (c : Course) (slot : String) (t : Char), c.days = "mwf" →
          (canMoveCourse c slot (String.singleton t) = true ↔ t = 'm' ∨ t = 'w' ∨ t = 'f'))
      ∧ (∀ (c : Course) (slot : String) (t : Char), c.days = "tr" →
          (canMoveCourse c slot (String.singleton t) = true ↔ t = 't' ∨ t = 'r'))
      ∧ (∀ (c : Course) (slot : String) (t : Char), c.days.length ≠ 1 → c.days ≠ "mwf" →
          c.days ≠ "tr" → canMoveCourse c slot (String.singleton t) = false) := by
  refine ⟨?_, ?_, ?_, ?_⟩
  · intro c slot t h
    simp only [canMoveCourse]
    rw [if_pos h]
  · intro c slot t h
    simp only [canMoveCourse]
    rw [h]
    rw [if_neg (by decide : ¬("mwf" : String).length = 1), if_pos rfl]
    unfold containsStr
    rw [show (String.singleton t).toList = [t] from rfl, isInfixOfL_singleton]
    show (['m', 'w', 'f'].contains t = true) ↔ _
    simp
  · intro c slot t h
    simp only [canMoveCourse]
    rw [h]
    rw [if_neg (by decide : ¬("tr" : String).length = 1), if_neg (by decide), if_pos rfl]
    unfold containsStr
    rw [show (String.singleton t).toList = [t] from rfl, isInfixOfL_singleton]
    show (['t', 'r'].contains t = true) ↔ _
    simp
  · intro c slot t h1 h2 h3
    simp only [canMoveCourse]
    rw [if_neg h1, if_neg h2, if_neg h3]

/-- Witness for C6: the claim's three concrete instances, obtained from the
theorem — the MWF course may move to `w` but not to `t`, and the single-day
Tuesday course may move to `f`. -/
theorem c6_canMoveCourse_classes_witness :
    (canMoveCourse c6mwfCourse "08:30" (String.singleton 'w') = true)
      ∧ canMoveCourse c6mwfCourse "08:30" (String.singleton 't') = false
      ∧ canMoveCourse c6tCourse "08:30" (String.singleton 'f') = true := by
  refine ⟨?_, ?_, ?_⟩
  · exact (c6_canMoveCourse_classes.2.1 c6mwfCourse "08:30" 'w' rfl).mpr (by decide)
  · have h := (c6_canMoveCourse_classes.2.1 c6mwfCourse "08:30" 't' rfl)
    have h2 : ¬('t' = 'm' ∨ 't' = 'w' ∨ 't' = 'f') := by decide
    cases hb : canMoveCourse c6mwfCourse "08:30" (String.singleton 't')
    · rfl
    · exact absurd (h.mp hb) h2
  · exact c6_canMoveCourse_classes.1 c6tCourse "08:30" 'f' rfl

/-- First course of the C2 scenario: room `A101`, faculty `Smith`, MWF
8:30-9:30 (the `room` property as set by an `updateCourse` edit). -/
def c2courseA : Course :=
  { id := "course_c2a", courseNum := "CS101", courseName := "", faculty := "Smith",
    facultyFull := "Smith", days := "mwf", startTime := 510, endTime := 570, length := 60,
    fte := 1, visible := true, hasOverlap := false, overlappingCourses := [],
    room := some "A101" }

/-- Second course of the C2 scenario: the same room `A101`, a different
faculty, MWF 9:00-10:00 — overlapping the first in day set and time. -/
def c2courseB : Course :=
  { id := "course_c2b", courseNum := "CS102", courseName := "", faculty := "Jones",
    facultyFull := "Jones", days := "mwf", startTime := 540, endTime := 600, length := 60,
    fte := 1, visible := true, hasOverlap := false, overlappingCourses := [],
    room := some "A101" }

/-- C2: the conflict detector performs no room-conflict test at all.  The
two courses share the non-empty room `A101` under exact string match,
their day sets intersect, and their half-open intervals overlap, yet after
`checkAllOverlaps` neither `hasRoomOverlap` flag is set and neither course
is in the other's overlap-peer list — the pair is skipped outright at the
`faculty !== faculty` guard (scheduler.js line 87), and nothing in
`checkAllOverlaps` ever assigns `hasRoomOverlap` (the flag that grid.js
line 217 and app.js `updateOverlapWarnings` read). -/
theorem c2_room_conflict_never_flagged :
    c2courseA.room = some "A101" ∧ c2courseB.room = some "A101"
      ∧ getCommonDays c2courseA.days c2courseB.days ≠ []
      ∧ timesOverlap c2courseA.startTime c2courseA.endTime c2courseB.startTime
          c2courseB.endTime = true
      ∧ coursesOverlap c2courseA c2courseB = true
      ∧ ((checkAllOverlaps [c2courseA, c2courseB] true).getD 0 default).hasRoomOverlap = false
      ∧ ((checkAllOverlaps [c2courseA, c2courseB] true).getD 1 default).hasRoomOverlap = false
      ∧ ((checkAllOverlaps [c2courseA, c2courseB] true).getD 0 default).overlappingCourses = []
      ∧ ((checkAllOverlaps [c2courseA, c2courseB] true).getD 1 default).overlappingCourses
          = [] := by
  decide

/-- Embedding of `validateDaysValue` (controls.js lines 675-694): every
character in `mtwrf`, no duplicates (the `Set` size test), and at most 5
characters. -/
def validateDaysValue (value : String) : Bool :=
  let chars := value.toList
  chars.all (fun c => "mtwrf".toList.contains c)
    && (chars.eraseDups.length == chars.length)
    && chars.length ≤ 5

/-- The partial `updates` object the edit modal passes to `updateCourse`
(controls.js lines 602-645): each field is present (`some`) or absent
(`none`).  The modal never writes an `id` key, which is why the structure
has no id field — no in-repo mutation ever reassigns a course id. -/
structure CourseUpdates where
  courseNum : Option String := none
  courseName : Option String := none
  faculty : Option String := none
  facultyFull : Option String := none
  days : Option String := none
  startTime : Option Int := none
  endTime : Option Int := none
  length : Option Int := none
  fte : Option ℚ := none
  room : Option String := none
deriving DecidableEq, Inhabited

/-- JS `Object.assign(course, updates)`: every property present on the
updates object overwrites the course's. -/
def objectAssign (c : Course) (u : CourseUpdates) : Course :=
  { c with
    courseNum := u.courseNum.getD c.courseNum
    courseName := u.courseName.getD c.courseName
    faculty := u.faculty.getD c.faculty
    facultyFull := u.facultyFull.getD c.facultyFull
    days := u.days.getD c.days
    startTime := u.startTime.getD c.startTime
    endTime := u.endTime.getD c.endTime
    length := u.length.getD c.length
    fte := u.fte.getD c.fte
    room := match u.room with
      | some r => some r
      | none => c.room }

/-- Truthiness of an optional `Date` property: a `Date` object is always
truthy, so only absence is falsy. -/
def jsTruthyDate (o : Option Int) : Bool := o.isSome

/-- Truthiness of an optional string property: absent or empty is falsy. -/
def jsTruthyStr (o : Option String) : Bool :=
  match o with
  | none => false
  | some s => decide (s ≠ "")

/-- Embedding of `updateCourse` (app.js lines 448-469, the course-record
part): assign the updates onto the course, then recompute `length` when
start time, end time or days changed; the faculty-list and re-render side
effects touch no course field. -/
def updateCourse (course : Course) (updates : CourseUpdates) : Course :=
  let c2 := objectAssign course updates
  if jsTruthyDate updates.startTime || jsTruthyDate updates.endTime
      || jsTruthyStr updates.days then
    { c2 with length := c2.endTime - c2.startTime }
  else c2

/-- The course-mutating part of the drag handler `handleDrop` (dragDrop.js
lines 145-156): apply `updateCourseTime` with the slot label, then, for a
single-day course, overwrite `days` with the target column's day letter. -/
def handleDropMove (c : Course) (targetDay : String) (newTimeStr : String) : Course :=
  let c2 := updateCourseTime c newTimeStr
  if c2.days.length = 1 then { c2 with days := targetDay } else c2

theorem updateCourse_days_id (c : Course) (u : CourseUpdates) :
    (updateCourse c u).days = u.days.getD c.days ∧ (updateCourse c u).id = c.id := by
  simp only [updateCourse, objectAssign]
  split
  · exact ⟨rfl, rfl⟩
  · exact ⟨rfl, rfl⟩

theorem updateCourseTime_days_id (c : Course) (s : String) :
    (updateCourseTime c s).days = c.days ∧ (updateCourseTime c s).id = c.id := by
  unfold updateCourseTime
  split
  · exact ⟨rfl, rfl⟩
  · exact ⟨rfl, rfl⟩

/-- A well-formed course used to exercise the mutation paths of C3. -/
def c3editCourse : Course :=
  { id := "course_c3e", courseNum := "CS303", courseName := "", faculty := "Cole",
    facultyFull := "Cole", days := "mwf", startTime := 510, endTime := 570, length := 60,
    fte := 1, visible := true, hasOverlap := false, overlappingCourses := [] }

/-- A modal-shaped updates object carrying a validated day change. -/
def c3daysUpdate : CourseUpdates := { days := some "tr" }

/-- An updates object that moves only the start time past the end time (a
start-time edit with no length change). -/
def c3lateStart : CourseUpdates := { startTime := some 600 }

/-- A normalized row whose end time is one hour before its start time. -/
def c3badRow : NormalizedRow :=
  { courseNum := "CS333", courseName := "", faculty := "Adams", days := "mwf",
    startTime := "09:00", endTime := "08:00", fte := "1" }

/-- The course `createCourse` builds from `c3badRow`. -/
def c3badCourse : Course := ((createCourse 0 c3badRow).1).getD default

/-- C3 counterexample: `createCourse` performs no start-before-end check,
so a row whose end time precedes its start time still yields a course, and
that course violates the claimed `startMinute < endMinute` invariant
immediately after creation (540 is not earlier than 480). -/
theorem c3_start_before_end_not_enforced :
    (createCourse 0 c3badRow).1 = some c3badCourse
      ∧ c3badCourse.startTime = 540 ∧ c3badCourse.endTime = 480
      ∧ ¬(c3badCourse.startTime < c3badCourse.endTime)
      ∧ c3badCourse.length = -60 := by
  decide

/-- C3 amended: of the claimed invariant, the `days` non-empty and id
uniqueness parts hold after creation and after every in-repo mutation —
creation rejects empty parsed day sets and returns `course_` followed by
the incremented counter (distinct counter values give distinct ids);
`updateCourse` never changes the id (the modal's updates object carries no
id key) and keeps `days` non-empty under the modal's guard, which only
sets `updates.days` to a non-empty `validateDaysValue`-approved string;
the drag-move path never changes the id and only ever writes a grid day
letter into `days`.  The `startMinute < endMinute` part is not part of the
invariant: it is unchecked at creation, and `updateCourse` applies a
start-past-end edit without re-validation (last conjunct). -/
theorem c3_days_nonempty_id_unique :
    (∀ (counter : Nat) (row : NormalizedRow) (c : Course) (counter2 : Nat),
        createCourse counter row = (some c, counter2) →
          c.days ≠ "" ∧ c.id = "course_" ++ Nat.repr (counter + 1) ∧ counter2 = counter + 1)
      ∧ (∀ m n : Nat, m ≠ n →
          ("course_" ++ Nat.repr (m + 1) : String) ≠ "course_" ++ Nat.repr (n + 1))
      ∧ (∀ (c : Course) (u : CourseUpdates), c.days ≠ "" →
          (∀ d, u.days = some d → d ≠ "" ∧ validateDaysValue d = true) →
          (updateCourse c u).days ≠ "" ∧ (updateCourse c u).id = c.id)
      ∧ (∀ (c : Course) (targetDay newTimeStr : String), c.days ≠ "" →
          targetDay ∈ ["m", "t", "w", "r", "f"] →
          (handleDropMove c targetDay newTimeStr).days ≠ ""
            ∧ (handleDropMove c targetDay newTimeStr).id = c.id)
      ∧ ((updateCourse c3editCourse c3lateStart).startTime = 600
          ∧ (updateCourse c3editCourse c3lateStart).endTime = 570
          ∧ ¬((updateCourse c3editCourse c3lateStart).startTime
              < (updateCourse c3editCourse c3lateStart).endTime)
          ∧ (updateCourse c3editCourse c3lateStart).length = -30) := by
  refine ⟨?_, ?_, ?_, ?_, ?_⟩
  · intro counter row c counter2 h
    unfold createCourse at h
    rcases hst : parseTime row.startTime with _ | st
    · rw [hst] at h
      simp at h
    rcases het : parseTime row.endTime with _ | et
    · rw [hst, het] at h
      simp at h
    rw [hst, het] at h
    dsimp only at h
    by_cases hd : parseDays row.days = ""
    · rw [if_pos hd] at h
      simp at h
    · rw [if_neg hd] at h
      injection h with h1 h2
      injection h1 with h1
      subst h1
      exact ⟨hd, rfl, h2.symm⟩
  · intro m n hmn hc
    have hdata := congrArg String.data hc
    rw [String.data_append, String.data_append] at hdata
    have hsuffix : (Nat.repr (m + 1)).data = (Nat.repr (n + 1)).data :=
      List.append_cancel_left hdata
    have hrepr : Nat.repr (m + 1) = Nat.repr (n + 1) := by
      cases hm : Nat.repr (m + 1) with
      | mk dm =>
        cases hn : Nat.repr (n + 1) with
        | mk dn =>
          rw [hm, hn] at hsuffix
          have hdd : dm = dn := hsuffix
          rw [hdd]
    have := natRepr_injective hrepr
    omega
  · intro c u hcd hud
    obtain ⟨hdays, hid⟩ := updateCourse_days_id c u
    refine ⟨?_, hid⟩
    rw [hdays]
    cases hu : u.days with
    | none => simpa using hcd
    | some d =>
      have hd := (hud d hu).1
      simpa using hd
  · intro c targetDay newTimeStr hcd htd
    obtain ⟨hdays, hid⟩ := updateCourseTime_days_id c newTimeStr
    simp only [handleDropMove]
    split
    · constructor
      · show targetDay ≠ ""
        fin_cases htd <;> decide
      · exact hid
    · exact ⟨by rw [hdays]; exact hcd, hid⟩
  · decide

/-- A well-formed row used to instantiate the amended C3 theorem. -/
def c3goodRow : NormalizedRow :=
  { courseNum := "CS101", courseName := "Intro", faculty := "Smith, J.", days := "MWF",
    startTime := "8:30 AM", endTime := "9:30 AM", fte := "1" }

/-- The course `createCourse` builds from `c3goodRow` at counter 0. -/
def c3goodCourse : Course := ((createCourse 0 c3goodRow).1).getD default

/-- Witness for the amended C3 theorem: a concrete creation has a
non-empty day set and the counter-derived id, the ids of the first two
creations differ, a modal-shaped day edit keeps days non-empty and the id
unchanged, and a drag move onto Wednesday does too. -/
theorem c3_days_nonempty_id_unique_witness :
    (c3goodCourse.days ≠ "" ∧ c3goodCourse.id = "course_" ++ Nat.repr (0 + 1)
        ∧ (1 : Nat) = 0 + 1)
      ∧ ("course_" ++ Nat.repr (0 + 1) : String) ≠ "course_" ++ Nat.repr (1 + 1)
      ∧ ((updateCourse c3editCourse c3daysUpdate).days ≠ ""
          ∧ (updateCourse c3editCourse c3daysUpdate).id = c3editCourse.id)
      ∧ ((handleDropMove c3editCourse "w" "08:30").days ≠ ""
          ∧ (handleDropMove c3editCourse "w" "08:30").id = c3editCourse.id) :=
  ⟨c3_days_nonempty_id_unique.1 0 c3goodRow c3goodCourse 1 (by decide),
   c3_days_nonempty_id_unique.2.1 0 1 (by decide),
   c3_days_nonempty_id_unique.2.2.1 c3editCourse c3daysUpdate (by decide)
     (by
       intro d hd
       injection hd with hd
       subst hd
       exact ⟨by decide, by decide⟩),
   c3_days_nonempty_id_unique.2.2.2.1 c3editCourse "w" "08:30" (by decide) (by decide)⟩

/-- Row whose fte cell is the parseable string `"0"`. -/
def c8rowZero : NormalizedRow :=
  { courseNum := "CS801", courseName := "", faculty := "Lee", days := "mwf",
    startTime := "8:30 AM", endTime := "9:30 AM", fte := "0" }

/-- Row whose fte cell is the parseable negative string `"-2"`. -/
def c8rowNeg : NormalizedRow :=
  { courseNum := "CS802", courseName := "", faculty := "Lee", days := "mwf",
    startTime := "8:30 AM", endTime := "9:30 AM", fte := "-2" }

/-- The course built from `c8rowZero`. -/
def c8courseZero : Course := ((createCourse 0 c8rowZero).1).getD default

/-- The course built from `c8rowNeg`. -/
def c8courseNeg : Course := ((createCourse 0 c8rowNeg).1).getD default

/-- C8 counterexample: `parseFloat(rowData.fte) || 1.0` (scheduler.js line
24) tests JS falsiness, not parse failure.  The cell `"0"` parses to the
number 0, yet the course's fte becomes 1.0 — so fte is not the parsed
value and the default does not apply exactly when the field is absent or
unparseable.  The cell `"-2"` parses and is kept, so fte is not
non-negative either. -/
theorem c8_fte_zero_and_negative :
    parseFloatQ c8rowZero.fte = some 0
      ∧ (createCourse 0 c8rowZero).1 = some c8courseZero
      ∧ c8courseZero.fte = 1
      ∧ (createCourse 0 c8rowNeg).1 = some c8courseNeg
      ∧ c8courseNeg.fte = -2
      ∧ c8courseNeg.fte.num < 0 := by
  decide

/-- C8 amended: the fte of a created course equals the parsed numeric
value when the cell parses to a nonzero number (negative values included),
and defaults to 1.0 when the cell is unparseable or parses to 0 — the JS
falsy cases of `parseFloat(rowData.fte) || 1.0`. -/
theorem c8_fte_default_semantics :
    ∀ (counter : Nat) (row : NormalizedRow) (c : Course) (counter2 : Nat),
      createCourse counter row = (some c, counter2) →
        ((parseFloatQ row.fte = none ∨ parseFloatQ row.fte = some 0) → c.fte = 1)
          ∧ ∀ q : ℚ, parseFloatQ row.fte = some q → q ≠ 0 → c.fte = q := by
  intro counter row c counter2 h
  unfold createCourse at h
  rcases hst : parseTime row.startTime with _ | st
  · rw [hst] at h
    simp at h
  rcases het : parseTime row.endTime with _ | et
  · rw [hst, het] at h
    simp at h
  rw [hst, het] at h
  dsimp only at h
  by_cases hd : parseDays row.days = ""
  · rw [if_pos hd] at h
    simp at h
  · rw [if_neg hd] at h
    injection h with h1 h2
    injection h1 with h1
    subst h1
    constructor
    · intro hcase
      dsimp only
      rcases hcase with hp | hp
      · rw [hp]
      · rw [hp]
        simp
    · intro q hp hq
      dsimp only
      rw [hp]
      simp [hq]

/-- Witness for the amended C8 theorem: the zero cell defaults to 1. -/
theorem c8_fte_default_semantics_witness : c8courseZero.fte = 1 :=
  (c8_fte_default_semantics 0 c8rowZero c8courseZero 1 (by decide)).1 (Or.inr (by decide))

/-- A normalized row carrying a non-empty room cell and retained raw data. -/
def c9row : NormalizedRow :=
  { courseNum := "CS901", courseName := "", faculty := "Kim", days := "tr",
    startTime := "8:30 AM", endTime := "9:30 AM", fte := "1", room := "A101",
    term := some "2024SEM1",
    originalRow := some ["CS901", "TR", "8:30 AM", "9:30 AM", "2024SEM1", "A101"],
    originalRowIndex := some 3 }

/-- The course built from `c9row`. -/
def c9course : Course := ((createCourse 0 c9row).1).getD default

/-- C9: the object literal of `createCourse` (scheduler.js lines 26-40)
assigns no `room` property (and none of the `_originalRow` metadata), so
every course built from ingested data reads `room` as `undefined` even
when the row's room cell is non-empty. -/
theorem c9_created_course_has_no_room :
    ∀ (counter : Nat) (row : NormalizedRow) (c : Course) (counter2 : Nat),
      createCourse counter row = (some c, counter2) →
        c.room = none ∧ c.originalRow = none ∧ c.originalRowIndex = none := by
  intro counter row c counter2 h
  unfold createCourse at h
  rcases hst : parseTime row.startTime with _ | st
  · rw [hst] at h
    simp at h
  rcases het : parseTime row.endTime with _ | et
  · rw [hst, het] at h
    simp at h
  rw [hst, het] at h
  dsimp only at h
  by_cases hd : parseDays row.days = ""
  · rw [if_pos hd] at h
    simp at h
  · rw [if_neg hd] at h
    injection h with h1 h2
    injection h1 with h1
    subst h1
    exact ⟨rfl, rfl, rfl⟩

/-- Witness for C9: a row with a non-empty room cell still produces a
course without room data. -/
theorem c9_created_course_has_no_room_witness :
    c9course.room = none ∧ c9course.originalRow = none ∧ c9course.originalRowIndex = none :=
  c9_created_course_has_no_room 0 c9row c9course 1 (by decide)

/-- C10: for every course and every valid zero-padded `HH:MM` label (as the
drag handler builds them), `updateCourseTime` sets the start `Date` to that
time of day and the end `Date` exactly `course.length` minutes later, and
— stated by the record-update equality — modifies no field of the course
other than `startTime` and `endTime`. -/
theorem c10_updateCourseTime_preserves_duration :
    ∀ (c : Course) (h m : Nat), h < 24 → m < 60 →
      updateCourseTime c (pad2 h ++ ":" ++ pad2 m)
        = { c with startTime := (h : Int) * 60 + (m : Int),
                   endTime := ((h : Int) * 60 + (m : Int)) + c.length } := by
  intro c h m hh hm
  have hslist : (pad2 h ++ ":" ++ pad2 m).toList
      = (pad2 h).toList ++ ':' :: (pad2 m).toList := by
    show ((pad2 h ++ ":" ++ pad2 m)).data = (pad2 h).data ++ ':' :: (pad2 m).data
    rw [String.data_append, String.data_append]
    simp
  have hkey : (splitOnCharL ':' ((pad2 h ++ ":" ++ pad2 m)).toList).map jsNumber
      = [some h, some m] := by
    rw [hslist, splitOnCharL_append ':' _ _ (pad2_no_colon h) (pad2_no_colon m)]
    simp only [List.map_cons, List.map_nil]
    rw [jsNumber_pad2, jsNumber_pad2]
  unfold updateCourseTime
  rw [hkey]

/-- Concrete course for the C10 witness. -/
def c10course : Course :=
  { id := "course_c10", courseNum := "CS110", courseName := "", faculty := "X",
    facultyFull := "X", days := "mwf", startTime := 510, endTime := 560, length := 50,
    fte := 1, visible := true, hasOverlap := false, overlappingCourses := [] }

/-- Witness for C10 at the label `08:30`. -/
theorem c10_updateCourseTime_preserves_duration_witness :
    updateCourseTime c10course (pad2 8 ++ ":" ++ pad2 30)
      = { c10course with startTime := (8 : Int) * 60 + (30 : Int),
                         endTime := ((8 : Int) * 60 + (30 : Int)) + c10course.length } :=
  c10_updateCourseTime_preserves_duration c10course 8 30 (by decide) (by decide)

/-- C7: after a `checkAllOverlaps` pass on a course list whose ids are
pairwise distinct (as the creation counter guarantees), overlap-peer
membership is symmetric — for any two positions, the course at one lists
the other's id iff the converse holds — and the detector is idempotent: a
second pass on the unchanged list returns identical annotations. -/
theorem c7_overlap_symm_and_idem (cs : List Course) (b : Bool)
    (hids : (cs.map Course.id).Nodup) :
    (∀ i j, i < cs.length → j < cs.length →
        (((checkAllOverlaps cs b).getD j default).id
            ∈ ((checkAllOverlaps cs b).getD i default).overlappingCourses
          ↔ ((checkAllOverlaps cs b).getD i default).id
            ∈ ((checkAllOverlaps cs b).getD j default).overlappingCourses))
      ∧ checkAllOverlaps (checkAllOverlaps cs b) b = checkAllOverlaps cs b :=
  ⟨fun i j hi hj =>
    ⟨fun h => overl_symm_aux cs b hids i j hi hj h,
     fun h => overl_symm_aux cs b hids j i hj hi h⟩,
   checkAllOverlaps_idem cs b⟩

/-- First course of the C7 witness pair: Smith, MWF 8:30-9:30. -/
def c7courseA : Course :=
  { id := "course_c7a", courseNum := "CS101", courseName := "", faculty := "Smith",
    facultyFull := "Smith, J.", days := "mwf", startTime := 510, endTime := 570, length := 60,
    fte := 1, visible := true, hasOverlap := false, overlappingCourses := [] }

/-- Second course of the C7 witness pair: Smith, MW 9:00-10:00, overlapping
the first. -/
def c7courseB : Course :=
  { id := "course_c7b", courseNum := "CS102", courseName := "", faculty := "Smith",
    facultyFull := "J. Smith", days := "mw", startTime := 540, endTime := 600, length := 60,
    fte := 1, visible := true, hasOverlap := false, overlappingCourses := [] }

/-- Witness for C7 on a concrete conflicting pair. -/
theorem c7_overlap_symm_and_idem_witness :
    (((checkAllOverlaps [c7courseA, c7courseB] true).getD 1 default).id
        ∈ ((checkAllOverlaps [c7courseA, c7courseB] true).getD 0 default).overlappingCourses
      ↔ ((checkAllOverlaps [c7courseA, c7courseB] true).getD 0 default).id
        ∈ ((checkAllOverlaps [c7courseA, c7courseB] true).getD 1 default).overlappingCourses)
      ∧ checkAllOverlaps (checkAllOverlaps [c7courseA, c7courseB] true) true
        = checkAllOverlaps [c7courseA, c7courseB] true :=
  ⟨(c7_overlap_symm_and_idem [c7courseA, c7courseB] true (by decide)).1 0 1
      (by decide) (by decide),
   (c7_overlap_symm_and_idem [c7courseA, c7courseB] true (by decide)).2⟩

/-- Headers of the C1 scenario: a single-sheet-term layout with one extra
untracked column `NOTES`. -/
def c1headers : List String := ["CLASS", "DAYS", "START", "END", "TERM", "NOTES"]

/-- Column mapping the header detector binds for `c1headers`. -/
def c1mapping : ColumnMapping :=
  { courseNum := some 0, days := some 1, startTime := some 2, endTime := some 3,
    term := some 4 }

/-- A raw data row of the C1 scenario; cell 5 is untracked free text. -/
def c1raw : List String :=
  ["CS101", "MWF", "8:30 AM", "9:30 AM", "2024SEM1", "important note"]

/-- The normalized row `normalizeRows` produces for `c1raw` in
single-sheet-term mode. -/
def c1row : NormalizedRow := (normalizeRow c1mapping c1raw 1).getD default

/-- The course `createCourse` builds from `c1row`. -/
def c1course : Course := ((createCourse 0 c1row).1).getD default

/-- The row the exporter emits for `c1course`. -/
def c1exportRow : List Cell := buildExportRow c1mapping c1headers "2024SEM1" c1course

/-- C1: the single-sheet-term round trip is broken.  Ingestion does retain
the raw row on the normalized record (`_originalRow`), but `createCourse`
builds a fresh object that carries none of that metadata, so at export
time `course._originalRow` reads `undefined`, the exporter takes its
synthesize-a-blank-row branch, and the untracked `NOTES` cell comes out
empty instead of passing through byte-for-byte. -/
theorem c1_roundtrip_original_row_dropped :
    normalizeRow c1mapping c1raw 1 = some c1row
      ∧ c1row.originalRow = some c1raw
      ∧ (createCourse 0 c1row).1 = some c1course
      ∧ c1course.originalRow = none
      ∧ c1exportRow.getD 5 (Cell.str "?") = Cell.str ""
      ∧ c1raw.getD 5 "?" = "important note"
      ∧ Cell.str "" ≠ Cell.str "important note" := by
  decide
